import Mathlib

/-!
Verification development for the Hi-Ben ingestion pipeline.

The definitions below are a shallow embedding of the note-taking workflow:

* `src/src/agents/note_taker_agent.py` — the `NoteTakerAgent` state machine
  (`_content_precheck`, `_format_content`, `_save_to_notion`, `_extract_tasks`,
  `_create_tasks`, `_update_status`, `process`, and the routing functions
  `_route_after_url_check`, `_route_after_save`);
* `src/src/platforms/telegram/state_manager.py` — the
  `TelegramStateManager` status sink that `message_router.py` injects into
  every `process` call (`format_status_text`, `update_status_message`,
  `create_status_message`);
* `src/src/platforms/telegram/telegram_bot.py` — the `_message_worker`
  dequeue loop.

External collaborators (LLM calls, Notion, Dida365, the Telegram transport)
are modelled as oracles collected in an `Env` record: each capability call
of one run is represented by the value or exception it returns.  Status
narration is modelled as the list of `StatusCall` requests issued through
`_update_status`, in program order.
-/

namespace HiBen

/-- Message status, from `src/src/core/status.py` (`MessageStatus`). -/
inductive MessageStatus
  | received
  | processing
  | completed
  | failed
deriving Repr, DecidableEq

/-- Process step, from the local `ProcessStep` enum of
`src/src/agents/note_taker_agent.py` (values assigned by `auto()`). -/
inductive ProcessStep
  | initialized
  | preprocessing
  | contentAnalysis
  | urlProcessing
  | taskExtraction
  | savingToNotion
  | creatingTasks
  | completed
  | error
deriving Repr, DecidableEq

/-- The `auto()` integer value of each `ProcessStep` member. -/
def ProcessStep.value : ProcessStep → Nat
  | .initialized => 1
  | .preprocessing => 2
  | .contentAnalysis => 3
  | .urlProcessing => 4
  | .taskExtraction => 5
  | .savingToNotion => 6
  | .creatingTasks => 7
  | .completed => 8
  | .error => 9

/-- Result dict of `llm_service.url_text_analyzer`. -/
structure PrecheckResult where
  contains_url : Bool
  contains_text : Bool
  urls : List String
deriving Repr, DecidableEq

/-- Result dict of `llm_service.format_content`; every key is read with
`.get`, so each field is optional. -/
structure FormatResult where
  content_type : Option String
  title : Option String
  summary : Option String
  content : Option String
  tags : Option (List String)
deriving Repr, DecidableEq

/-- One extracted task dict as consumed by `_create_tasks`; every key is
read with `.get`, so each field is optional. -/
structure TaskDict where
  projectId : Option String
  title : Option String
  content : Option String
  dueDate : Option String
  priority : Option Nat
  isAllDay : Option Bool
  desc : Option String
deriving Repr, DecidableEq

/-- Python `int()` on a rational: truncation toward zero. -/
def pyInt (q : ℚ) : Int :=
  if 0 ≤ q then ⌊q⌋ else -⌊-q⌋

/-- Python truthiness of an optional string (`None` and `""` are falsy). -/
def optStrTruthy : Option String → Bool
  | none => false
  | some s => !(s == "")

/-- Python interpolation of a possibly-`None` string into an f-string. -/
def pyStr : Option String → String
  | none => "None"
  | some s => s

/-- `TelegramStateManager.format_status_text`
(`src/src/platforms/telegram/state_manager.py`, lines 227-254): prepend the
emoji when one is given; when a progress value is present, append a
10-segment block bar and a percentage on their own line. -/
def format_status_text (progress : Option ℚ) (step : String)
    (description : String) (emoji : String) : String :=
  let description := if emoji ≠ "" then emoji ++ " " ++ description else description
  match progress with
  | none => description
  | some p =>
    let bar_length : Nat := 10
    let filled_length : Nat := (pyInt (p * (bar_length : ℚ))).toNat
    let bar := String.mk (List.replicate filled_length '█') ++
      String.mk (List.replicate (bar_length - filled_length) '░')
    description ++ "\n" ++ bar ++ " " ++ toString (pyInt (p * 100)) ++ "%"

/-- Python `split(": ")` over the character list: split on every
non-overlapping occurrence of `": "`, scanning left to right. -/
def split_colon_space : List Char → List (List Char)
  | [] => [[]]
  | ':' :: ' ' :: rest => [] :: split_colon_space rest
  | c :: rest =>
    match split_colon_space rest with
    | [] => [[c]]
    | seg :: segs => (c :: seg) :: segs

/-- Error-message simplification used by `_save_to_notion` and `process`:
`error_msg.split(": ")[-1]` applied when `": "` occurs in the message. -/
def simplify_error (s : String) : String :=
  let parts := (split_colon_space s.data).map String.mk
  if parts.length > 1 then parts.getLastD s else s

/-- `_get_precheck_status_text` of `note_taker_agent.py`. -/
def get_precheck_status_text (p : PrecheckResult) : String :=
  if p.contains_url && p.contains_text then "检测到URL和文本内容"
  else if p.contains_url then "检测到URL链接"
  else if p.contains_text then "检测到文本内容"
  else "未检测到有效内容"

/-- One status-narration request issued through
`NoteTakerAgent._update_status`, recorded with the arguments of the call. -/
structure StatusCall where
  status : MessageStatus
  step : ProcessStep
  progress : Option ℚ
  description : String
  status_message_id : Option String
  emoji : String
  show_progress : Bool
deriving Repr, DecidableEq

/-- The progress value actually passed to `format_status_text`:
`progress if show_progress else None` (note_taker_agent.py, line 794). -/
def StatusCall.effectiveProgress (c : StatusCall) : Option ℚ :=
  if c.show_progress then c.progress else none

/-- The status text rendered for a call, exactly as `_update_status`
computes it through `format_status_text`. -/
def StatusCall.renderedText (c : StatusCall) : String :=
  format_status_text c.effectiveProgress (toString c.step.value) c.description c.emoji

/-- Transport operation a status call turns into: `_update_status` edits the
stored status message when `status_message_id` is set and sends a fresh
message otherwise (note_taker_agent.py, lines 800-812). -/
inductive ChanOp
  | create
  | edit (mid : String)
deriving Repr, DecidableEq

/-- Transport operation of one status call. -/
def StatusCall.op (c : StatusCall) : ChanOp :=
  match c.status_message_id with
  | none => ChanOp.create
  | some mid => ChanOp.edit mid

/-- Constructor shorthand for `StatusCall`. -/
def mkCall (status : MessageStatus) (step : ProcessStep) (progress : Option ℚ)
    (description : String) (status_message_id : Option String)
    (emoji : String) (show_progress : Bool) : StatusCall :=
  ⟨status, step, progress, description, status_message_id, emoji, show_progress⟩

/-- The `AgentState` TypedDict threaded through the workflow.  Keys that may
be absent from the dict are modelled as `Option` fields (`none` = key
absent), matching the `.get` defaults used at every read site.  The raw
`message`, `results`, `errors` and `thread_id` entries carry no logic in the
workflow and are omitted. -/
structure AgentState where
  text_content : String
  media_files : List String
  background : String
  status_message_id : Option String
  precheck_result : Option PrecheckResult
  format_content_result : Option FormatResult
  tasks : Option (List TaskDict)
  save_success : Option Bool
  error_message : Option String
  next : String
deriving Repr, DecidableEq

/-- The langgraph `END` routing target. -/
def END : String := "__end__"

/-- Oracle record for one run: the outcome of every external capability
call the workflow may make.  `updater` is the truthiness of
`telegram_status_updater` (the `TelegramStateManager` that
`message_router.py` passes to `process`); `create_status` is the message id
returned by the initial `create_status_message`, or `none` when creation
failed.  `add_task` is indexed by the position of the task in the extracted
batch.  `parse_iso` folds `datetime.fromisoformat` plus
`strftime("%Y-%m-%d %H:%M")` on a raw `dueDate` string: `.error` models the
`ValueError` raised on a malformed string. -/
structure Env where
  updater : Bool
  create_status : Option String
  analyze : Except String PrecheckResult
  format : Except String FormatResult
  add_note : Except String Bool
  extract : Except String (List TaskDict)
  dida_service : Bool
  projects : List (String × String)
  add_task : Nat → Except String Bool
  parse_iso : String → Except String String

/-- Guard `if self.telegram_status_updater and status_message_id:` that
surrounds every in-workflow status update. -/
def emitGuard (env : Env) (st : AgentState) : Bool :=
  env.updater && st.status_message_id.isSome

/-- `_content_precheck` (note_taker_agent.py, lines 292-336): emit the 0.2
update, call `url_text_analyzer`, emit the 0.3 update with the detection
text, store `precheck_result`.  Its `except` clause logs and then
**re-raises** (`raise`, line 336), so a classifier failure propagates out of
the transition as `Except.error`. -/
def content_precheck (env : Env) (st : AgentState) :
    List StatusCall × Except String AgentState :=
  let c1 :=
    if emitGuard env st then
      [mkCall .processing .preprocessing (some 0.2) "正在预检内容..."
        st.status_message_id "🔍" true]
    else []
  match env.analyze with
  | .error e => (c1, .error e)
  | .ok pre =>
    let c2 :=
      if emitGuard env st then
        [mkCall .processing .preprocessing (some 0.3) (get_precheck_status_text pre)
          st.status_message_id "✨" true]
      else []
    (c1 ++ c2, .ok { st with precheck_result := some pre })

/-- `_route_after_url_check`: `contains_url` selects `url_summary`,
otherwise `format_content`. -/
def route_after_url_check (st : AgentState) : String :=
  if (st.precheck_result.map (fun r => r.contains_url)).getD false then
    "url_summary"
  else "format_content"

/-- `_url_summary` (note_taker_agent.py, lines 338-340): body is `pass`, so
the node performs no state update and emits nothing. -/
def url_summary (st : AgentState) : AgentState := st

/-- `_format_content` (note_taker_agent.py, lines 342-363): call
`llm_service.format_content`; on success store the result and set
`next="save_notion"`, on exception record `error_message` and `next=END`.
Emits no status update in either branch. -/
def format_content (env : Env) (st : AgentState) : AgentState :=
  match env.format with
  | .ok r => { st with format_content_result := some r, next := "save_notion" }
  | .error e => { st with error_message := some e, next := END }

/-- `_format_content_text` (note_taker_agent.py, lines 948-978). -/
def format_content_text (text_content : String) (llm_result : FormatResult) :
    String :=
  let summary := llm_result.summary.getD ""
  let formatted_content := llm_result.content.getD text_content
  let tags := llm_result.tags.getD []
  String.intercalate "\n"
    ["📝 原始内容：", text_content, "", "✨ 格式化内容：", formatted_content, "",
     "📋 内容总结：", summary, "", "🏷️ 标签：",
     if tags ≠ [] then String.intercalate "、" tags else "无标签"]

/-- `_save_to_notion` (note_taker_agent.py, lines 365-460): emit the 0.7
update, raise when the format result is missing, call
`daily_notes.add_note` (a falsy return raises), emit the 0.8 update on
success; the `except` clause strips the error to its last `": "` segment,
emits a failure update without a progress bar, and records
`save_success=False`, `next=END`. -/
def save_to_notion (env : Env) (st : AgentState) :
    List StatusCall × AgentState :=
  let c1 :=
    if emitGuard env st then
      [mkCall .processing .savingToNotion (some 0.7) "💾 正在保存到 Notion..."
        st.status_message_id "" true]
    else []
  let failWith : String → List StatusCall × AgentState := fun e =>
    let error_msg := simplify_error e
    let c2 :=
      if emitGuard env st then
        [mkCall .failed .savingToNotion (some 0.0) ("❌ " ++ error_msg)
          st.status_message_id "" false]
      else []
    (c1 ++ c2,
     { st with error_message := some error_msg, save_success := some false,
               next := END })
  match st.format_content_result with
  | none => failWith "格式化结果为空"
  | some fr =>
    let _full_content := format_content_text st.text_content fr
    match env.add_note with
    | .error e => failWith e
    | .ok false => failWith "保存到 Notion 失败"
    | .ok true =>
      let c3 :=
        if emitGuard env st then
          [mkCall .processing .savingToNotion (some 0.8) "已保存到 Notion"
            st.status_message_id "✅" true]
        else []
      (c1 ++ c3,
       { st with save_success := some true, next := "extract_tasks" })

/-- `_route_after_save`: `extract_tasks` exactly when
`contains_text and save_success`, otherwise `END`. -/
def route_after_save (st : AgentState) : String :=
  if ((st.precheck_result.map (fun r => r.contains_text)).getD false)
      && st.save_success.getD false then
    "extract_tasks"
  else END

/-- `_extract_tasks` (note_taker_agent.py, lines 462-515): emit the 0.95
update, call `llm_service.extract_tasks` (the background-JSON parsing only
feeds that call and is folded into the oracle); on success store `tasks`,
on exception emit a failure update without a progress bar and record
`error_message`, `next=END`. -/
def extract_tasks (env : Env) (st : AgentState) :
    List StatusCall × AgentState :=
  let c1 :=
    if emitGuard env st then
      [mkCall .processing .taskExtraction (some 0.95) "正在提取任务..."
        st.status_message_id "📌" true]
    else []
  match env.extract with
  | .ok tasks => (c1, { st with tasks := some tasks, next := "create_tasks" })
  | .error e =>
    let c2 :=
      if emitGuard env st then
        [mkCall .failed .error (some 0.0) ("❌ 提取任务失败: " ++ e)
          st.status_message_id "" false]
      else []
    (c1 ++ c2,
     { st with error_message := some ("提取任务失败: " ++ e), next := END })

/-- The name-to-id `project_map` built in `_create_tasks` from the
`dida.projects` config; a Python dict comprehension lets later entries win,
so lookup scans the reversed list. -/
def project_map_get (projects : List (String × String)) (name : String) :
    Option String :=
  (projects.reverse.find? (fun p => p.1 == name)).map (fun p => p.2)

/-- The `priority_map.get(priority, "普通")` lookup of `_create_tasks`. -/
def priority_map_get (p : Nat) : String :=
  if p == 1 then "低" else if p == 3 then "中" else if p == 5 then "高" else "普通"

/-- Due-date handling of the per-task loop of `_create_tasks`: a falsy
`dueDate` yields no due date, otherwise the string is parsed
(`datetime.fromisoformat` after the `Z` substitution); `.error` is the
`ValueError` that a malformed string raises. -/
def item_due (env : Env) (task : TaskDict) : Except String (Option String) :=
  match task.dueDate with
  | none => .ok none
  | some s =>
    if s = "" then .ok none
    else
      match env.parse_iso s with
      | .ok fmt => .ok (some fmt)
      | .error e => .error e

/-- Body of the per-task loop of `_create_tasks` (note_taker_agent.py,
lines 569-627) for the task at position `i`: resolve the project name (a
falsy id together with a truthy name records a warning and continues),
parse the due date, call `dida_service.add_task`, and on success append the
created-task description; any per-item exception is caught and appended as
a failure line.  Returns the lines this item appends to `results`. -/
def item_step (env : Env) (i : Nat) (task : TaskDict) : List String :=
  let project_name := task.projectId
  let project_id :=
    match project_name with
    | none => none
    | some n => project_map_get env.projects n
  if !optStrTruthy project_id && optStrTruthy project_name then
    ["⚠️ 找不到项目: " ++ pyStr project_name]
  else
    let title := task.title
    match item_due env task with
    | .error e => ["❌ 创建任务 \x27" ++ pyStr title ++ "\x27 失败: " ++ e]
    | .ok due =>
      match env.add_task i with
      | .error e => ["❌ 创建任务 \x27" ++ pyStr title ++ "\x27 失败: " ++ e]
      | .ok false => []
      | .ok true =>
        let task_desc := "✅ 已创建任务: " ++ pyStr title
        let task_desc :=
          if optStrTruthy project_name then
            task_desc ++ "\n📁 项目: " ++ pyStr project_name
          else task_desc
        let task_desc :=
          match due with
          | some d => task_desc ++ "\n⏰ 截止时间: " ++ d
          | none => task_desc
        let task_desc :=
          if (task.priority.getD 0) > 0 then
            task_desc ++ "\n🔥 优先级: " ++ priority_map_get (task.priority.getD 0)
          else task_desc
        [task_desc]

/-- The `for task in tasks:` loop of `_create_tasks`, accumulating the
`results` lines; `i` is the position of the head of the remaining list in
the original batch. -/
def create_loop (env : Env) : Nat → List TaskDict → List String
  | _, [] => []
  | i, t :: rest => item_step env i t ++ create_loop env (i + 1) rest

/-- The tag-wrapping loop of the completion report (note_taker_agent.py,
lines 653-668), iterating over the enumerated `#tag` strings with the
running `current_line`; `n` is `len(tags)`. -/
def tags_wrap_loop (n : Nat) :
    List (Nat × String) → List String → String → List String
  | [], tags_lines, current_line =>
    tags_lines ++ [current_line.replace "├─" "└─"]
  | (i, tag) :: rest, tags_lines, current_line =>
    if (current_line ++ tag).length > 30 then
      let tags_lines :=
        if i == n - 1 then tags_lines ++ [current_line.replace "├─" "└─"]
        else tags_lines ++ [current_line]
      tags_wrap_loop n rest tags_lines ("│  │  " ++ tag)
    else
      tags_wrap_loop n rest tags_lines (current_line ++ " " ++ tag)

/-- The tag block of the completion report (note_taker_agent.py, lines
649-672), for a non-empty tag list. -/
def report_tag_lines (tags : List String) : List String :=
  let formatted_tags := String.intercalate " " (tags.map (fun tag => "#" ++ tag))
  if formatted_tags.length > 30 then
    tags_wrap_loop tags.length ((tags.map (fun tag => "#" ++ tag)).enum) []
      "│  ├─ 🏷️ 标签: "
  else
    ["│  └─ 🏷️ 标签: " ++ formatted_tags]

/-- The due-date detail line of one task of the report: a truthy `dueDate`
is parsed (raising on a malformed string) and appended as a `⏰` line. -/
def report_due (env : Env) (detail_indent : String) (details : List String) :
    Option String → Except String (List String)
  | some s =>
    if s ≠ "" then
      match env.parse_iso s with
      | .ok formatted_date =>
        .ok (details ++ ["│  " ++ detail_indent ++ "├─ ⏰ " ++ formatted_date])
      | .error e => .error e
    else .ok details
  | none => .ok details

/-- The per-task section of the completion report (note_taker_agent.py,
lines 679-725), over `enumerate(tasks, 1)`; `n` is `len(tasks)`.  Parsing a
malformed `dueDate` raises, which propagates to the `except` clause of
`_create_tasks`. -/
def report_task_lines (env : Env) (n : Nat) :
    List (Nat × TaskDict) → Except String (List String)
  | [] => .ok []
  | (i, task) :: rest =>
    let title := task.title.getD ""
    let project := task.projectId.getD ""
    let priority := task.priority.getD 0
    let content := task.content.getD ""
    let is_last_task := i == n
    let pfx := if is_last_task then "└─" else "├─"
    let detail_indent := if is_last_task then "   " else "│  "
    let head := "│  " ++ pfx ++ " " ++ toString i ++ ". " ++ title
    let details : List String :=
      if project ≠ "" then ["│  " ++ detail_indent ++ "├─  " ++ project] else []
    match report_due env detail_indent details task.dueDate with
    | .error e => .error e
    | .ok details =>
      let details :=
        if priority > 0 then
          details ++
            ["│  " ++ detail_indent ++ "├─ 🔥 " ++ priority_map_get priority ++
              "优先级"]
        else details
      let details :=
        if content ≠ "" then
          let displayed_content :=
            if content.length > 40 then content.take 40 ++ "..." else content
          details ++ ["│  " ++ detail_indent ++ "└─ 📝 " ++ displayed_content]
        else if details ≠ [] then
          details.dropLast ++ [(details.getLastD "").replace "├─" "└─"]
        else details
      let sep := if !is_last_task then ["│"] else []
      match report_task_lines env n rest with
      | .error e => .error e
      | .ok tail => .ok ([head] ++ details ++ sep ++ tail)

/-- The completion-report lines built in `_create_tasks` (note_taker_agent.py,
lines 631-733): header, note-save section when `save_success` is set, task
section (or the explicit no-tasks line), trailing separator. -/
def build_report (env : Env) (st : AgentState) (tasks : List TaskDict) :
    Except String (List String) :=
  let format_content_result := st.format_content_result
  let header : List String := ["✨ 处理完成", ""]
  let note_lines : List String :=
    if st.save_success == some true then
      let content_type :=
        (format_content_result.bind (fun r => r.content_type)).getD "未分类"
      let tags := (format_content_result.bind (fun r => r.tags)).getD []
      let title := (format_content_result.bind (fun r => r.title)).getD ""
      ["├─ 📝 笔记信息", "│  ├─ ✅ 已保存到 Notion"] ++
        (if title ≠ "" then ["│  ├─ 📌 " ++ title] else []) ++
        ["│  ├─ 📑 分类: #" ++ content_type] ++
        (if tags ≠ [] then report_tag_lines tags else ["│  └─ 🏷️ 无标签"])
    else []
  let taskRes : Except String (List String) :=
    if tasks ≠ [] then
      match report_task_lines env tasks.length (List.enumFrom 1 tasks) with
      | .ok detail =>
        .ok (["", "├─ 📋 任务信息 (" ++ toString tasks.length ++ ")"] ++ detail)
      | .error e => .error e
    else .ok ["", "└─ 📋 未检测到任务"]
  match taskRes with
  | .error e => .error e
  | .ok task_lines =>
    .ok (header ++ note_lines ++ task_lines ++ ["", "· · · · · ·"])

/-- Report phase of `_create_tasks` (note_taker_agent.py, lines 629-749):
with or without tasks, build the completion report and emit it as a
terminal update with `progress=None, show_progress=False`; an exception
while building the report is caught by the function's `except` clause,
which emits a failure update and records `error_message`.  `c1` carries the
status calls already emitted by the creation phase. -/
def create_report_phase (env : Env) (st : AgentState) (tasks : List TaskDict)
    (c1 : List StatusCall) : List StatusCall × AgentState :=
  if emitGuard env st then
    match build_report env st tasks with
    | .ok report_lines =>
      (c1 ++
        [mkCall .completed .completed none
          ((String.intercalate "\n" report_lines).trim)
          st.status_message_id "" false],
       { st with next := END })
    | .error e =>
      (c1 ++
        [mkCall .failed .error (some 0.0) ("❌ 创建任务失败: " ++ e)
          st.status_message_id "" false],
       { st with error_message := some e, next := END })
  else (c1, { st with next := END })

/-- `_create_tasks` (note_taker_agent.py, lines 517-763).  With a non-empty
batch it emits the 0.98 update, returns early with an error when the
Dida365 service is unavailable, and otherwise runs the per-task loop (whose
`results` list is accumulated but never read afterwards); it then enters
the report phase. -/
def create_tasks (env : Env) (st : AgentState) :
    List StatusCall × AgentState :=
  let tasks := st.tasks.getD []
  if tasks ≠ [] then
    let c1 :=
      if emitGuard env st then
        [mkCall .processing .creatingTasks (some 0.98) "正在创建任务..."
          st.status_message_id "" true]
      else []
    if !env.dida_service then
      (c1, { st with error_message := some "请先配置滴答清单服务", next := END })
    else
      let _results := create_loop env 0 tasks
      create_report_phase env st tasks c1
  else
    create_report_phase env st tasks []

/-- The compiled workflow graph of `_create_workflow` (note_taker_agent.py,
lines 174-222): `START → precheck`, a conditional edge to `url_summary` or
`format_content`, unconditional edges `url_summary → format_content →
save_notion`, a conditional edge after `save_notion` (`extract_tasks` or
terminal), and the **unconditional** edge `extract_tasks → create_tasks`.
Returns the status calls in emission order, the list of visited node names,
and the final state (`Except.error` when a node re-raised). -/
def run_workflow (env : Env) (st0 : AgentState) :
    List StatusCall × List String × Except String AgentState :=
  match content_precheck env st0 with
  | (c1, .error e) => (c1, ["precheck"], .error e)
  | (c1, .ok st1) =>
    let urlVisited : List String :=
      if route_after_url_check st1 = "url_summary" then ["url_summary"] else []
    let st2 :=
      if route_after_url_check st1 = "url_summary" then url_summary st1 else st1
    let st3 := format_content env st2
    let (c3, st4) := save_to_notion env st3
    let visited := ["precheck"] ++ urlVisited ++ ["format_content", "save_notion"]
    if route_after_save st4 = "extract_tasks" then
      let (c4, st5) := extract_tasks env st4
      let (c5, st6) := create_tasks env st5
      (c1 ++ c3 ++ c4 ++ c5, visited ++ ["extract_tasks", "create_tasks"], .ok st6)
    else
      (c1 ++ c3, visited, .ok st4)

/-- `NoteTakerAgent.process` (note_taker_agent.py, lines 818-906) for a run
started by `message_router._process_message` (which always passes the
`TelegramStateManager` as updater).  When the updater argument is truthy it
first issues the initial `_update_status` call with no `status_message_id`
(a transport-create request) and stores the returned message id; then it
invokes the workflow; the `except` clause catches a propagated exception,
strips it to its last `": "` segment and emits a failure update.
`Except.error` in the result models the caught exception being returned as
the `{"error": ...}` dict.  `run_sid` is the `status_message_id` recorded
after the initial creation. -/
def run_sid (env : Env) : Option String :=
  if env.updater then env.create_status else none

/-- The initial `AgentState` built in `process` (note_taker_agent.py, lines
858-870). -/
def init_state (env : Env) (text : String) : AgentState :=
  { text_content := text, media_files := [], background := "",
    status_message_id := run_sid env, precheck_result := none,
    format_content_result := none, tasks := none, save_success := none,
    error_message := none, next := "__start__" }

/-- Body of `NoteTakerAgent.process`: the initial status-creation request,
the workflow invocation on `init_state`, and the boundary `except` clause. -/
def process (env : Env) (text : String) :
    List StatusCall × List String × Except String AgentState :=
  let initCalls :=
    if env.updater then
      [mkCall .processing .initialized (some 0.1) "🚀 开始处理..." none "" true]
    else []
  match run_workflow env (init_state env text) with
  | (cs, vs, .ok stF) => (initCalls ++ cs, vs, .ok stF)
  | (cs, vs, .error e) =>
    let error_msg := simplify_error e
    let ec :=
      if env.updater && (run_sid env).isSome then
        [mkCall .failed .error (some 0.0) ("❌ " ++ error_msg)
          (run_sid env) "" false]
      else []
    (initCalls ++ cs ++ ec, vs, .error e)

/-- All status-narration requests of one run, in emission order. -/
def run_trace (env : Env) (text : String) : List StatusCall :=
  (process env text).1

/-- The workflow nodes executed during one run, in order. -/
def run_visited (env : Env) (text : String) : List String :=
  (process env text).2.1

/-- The final state of one run (`Except.error` when the run aborted through
the `except` clause of `process`). -/
def run_result (env : Env) (text : String) : Except String AgentState :=
  (process env text).2.2

/-- Outcome of handling one dequeued item inside `_message_worker`
(telegram_bot.py, lines 206-221): the `await self._process_message(...)`
call either returns, raises `asyncio.CancelledError`, or raises some other
exception. -/
inductive WorkerEvent
  | ok
  | cancelled
  | exn (e : String)
deriving Repr, DecidableEq

/-- Effect of one iteration of the `while True` loop of `_message_worker`. -/
structure WorkerStepResult where
  logged : List String
  emitted : List StatusCall
  continue_loop : Bool
  task_done : Bool
deriving Repr, DecidableEq

/-- One iteration of `_message_worker` (telegram_bot.py, lines 206-221):
`except asyncio.CancelledError: break`; `except Exception as e:` logs
`消息处理失败` and falls through to the next iteration; `finally:` marks the
queue item done.  The worker itself emits no status update in any branch. -/
def message_worker_step : WorkerEvent → WorkerStepResult
  | .ok => ⟨[], [], true, true⟩
  | .cancelled => ⟨[], [], false, true⟩
  | .exn e => ⟨["消息处理失败: " ++ e], [], true, true⟩

/-- The `while True` dequeue loop of `_message_worker` over a finite stream
of outcomes: iterate until a `cancelled` outcome breaks the loop, collecting
each iteration's effect. -/
def message_worker_run : List WorkerEvent → List WorkerStepResult
  | [] => []
  | ev :: rest =>
    let r := message_worker_step ev
    if r.continue_loop then r :: message_worker_run rest else [r]

/-- The status message object returned by
`TelegramStateManager.create_status_message`. -/
structure StatusMessage where
  message_id : String
deriving Repr, DecidableEq

/-- `NoteTakerAgent._update_status` (note_taker_agent.py, lines 765-816)
with the transport behaviour abstracted: `upd_result` is the outcome of
`update_status_message` (`.error` = the call raised), `create_result` the
outcome of `create_status_message` (`.error` = it raised, `.ok none` = it
returned `None`).  The whole body sits in `try`, whose `except` clause logs
and returns `None`; with a `status_message_id` the function returns `None`
whether or not the edit succeeded. -/
def update_status (updater_present : Bool) (upd_result : Except String Bool)
    (create_result : Except String (Option StatusMessage))
    (progress : Option ℚ) (step : ProcessStep) (description : String)
    (status_message_id : Option String) (emoji : String)
    (show_progress : Bool) : Option StatusMessage :=
  if !updater_present then none
  else
    let _status_text :=
      format_status_text (if show_progress then progress else none)
        (toString step.value) description emoji
    match status_message_id with
    | some _ =>
      match upd_result with
      | .ok _ => none
      | .error _ => none
    | none =>
      match create_result with
      | .ok m => m
      | .error _ => none

/-- The save step succeeded: `format_content` returned a result and
`add_note` returned a truthy entry, which is exactly when `_save_to_notion`
sets `save_success=True`. -/
def save_step_succeeds (env : Env) : Prop :=
  (∃ fr, env.format = Except.ok fr) ∧ env.add_note = Except.ok true

/-- Boolean form of `save_step_succeeds`. -/
def save_ok_b (env : Env) : Bool :=
  (match env.format with | .ok _ => true | .error _ => false) &&
  (match env.add_note with | .ok b => b | .error _ => false)

/-- The error recorded by a run: the final state's `error_message`, or the
message of an exception that escaped the workflow. -/
def run_error_message (env : Env) (text : String) : Option String :=
  match run_result env text with
  | .ok st => st.error_message
  | .error e => some e

/-- The warning guard of the per-task loop:
`if not project_id and project_name:` — the resolved id is falsy while the
project name is truthy. -/
def item_warns (env : Env) (t : TaskDict) : Bool :=
  match t.projectId with
  | none => false
  | some n => !optStrTruthy (project_map_get env.projects n) && !(n == "")

/-- Whether the due-date handling of the per-task loop succeeds for `t`. -/
def due_ok (env : Env) (t : TaskDict) : Bool :=
  match t.dueDate with
  | none => true
  | some s => s == "" ||
      (match env.parse_iso s with | .ok _ => true | .error _ => false)

/-- Sample formatter result used by witnesses. -/
def frA : FormatResult := ⟨some "笔记", some "T", some "S", some "C", some ["a"]⟩

/-- Sample precheck result (plain text, no URL) used by witnesses. -/
def preT : PrecheckResult := ⟨false, true, []⟩

/-- A fully successful environment (no tasks extracted) used by witnesses. -/
def envOk : Env :=
  { updater := true, create_status := some "42", analyze := .ok preT,
    format := .ok frA, add_note := .ok true, extract := .ok [],
    dida_service := true, projects := [("P", "p1")],
    add_task := fun _ => .ok true,
    parse_iso := fun _ => .ok "2025-01-01 10:00" }

/-- Sample task whose project name resolves in `envOk.projects`. -/
def taskP : TaskDict := ⟨some "P", some "task1", none, none, none, none, none⟩

/-- Sample task whose project name does not resolve in `envOk.projects`. -/
def taskQ : TaskDict := ⟨some "Q", some "task2", none, none, none, none, none⟩

/-- Base agent state used by transition-level witnesses. -/
def stBase : AgentState :=
  { text_content := "hi", media_files := [], background := "",
    status_message_id := some "42", precheck_result := none,
    format_content_result := none, tasks := none, save_success := none,
    error_message := none, next := "__start__" }

/-- Environment of a run whose precheck, formatting, save and extraction
all succeed: the shape of every successful run. -/
def successEnv (mid : String) (pre : PrecheckResult) (fr : FormatResult)
    (ts : List TaskDict) (dida : Bool) (ps : List (String × String))
    (f : Nat → Except String Bool) (g : String → Except String String) : Env :=
  { updater := true, create_status := some mid, analyze := .ok pre,
    format := .ok fr, add_note := .ok true, extract := .ok ts,
    dida_service := dida, projects := ps, add_task := f, parse_iso := g }

/-- The state reached after a successful extraction in a fully successful
run: precheck, formatting and save results recorded, tasks stored. -/
def post_extract_state (text mid : String) (pre : PrecheckResult)
    (fr : FormatResult) (ts : List TaskDict) : AgentState :=
  { text_content := text, media_files := [], background := "",
    status_message_id := some mid, precheck_result := some pre,
    format_content_result := some fr, tasks := some ts,
    save_success := some true, error_message := none,
    next := "create_tasks" }

/-- Environment in which every capability call raises `"X: b"`, used by
witnesses. -/
def envAllErr : Env :=
  { envOk with
    analyze := Except.error "X: b", format := Except.error "X: b",
    add_note := Except.error "X: b", extract := Except.error "X: b" }

/-- Environment whose classifier call raises, used by witnesses. -/
def envPre : Env := { envOk with analyze := Except.error "boom" }

/-- Environment of a run that reaches `create_tasks` with one extracted
task while the Dida365 service is unavailable. -/
def envNoService : Env :=
  { envOk with dida_service := false, extract := Except.ok [taskP] }

/-- Sample task whose due-date string is malformed, used by witnesses. -/
def taskBadDate : TaskDict :=
  ⟨some "P", some "task1", none, some "bad", none, none, none⟩

/-- Environment in which every capability call raises `"X: b"` and the
date parser raises as well, used by witnesses. -/
def envAllErrBadDate : Env :=
  { envAllErr with
    parse_iso := fun _ => Except.error "Invalid isoformat string: bad" }

/-- Invariant of every status call emitted inside the workflow: it carries
the state's `status_message_id` (which the emit guard forces to be
present), and it uses an empty emoji whenever its effective progress is
absent. -/
def CallInv (st : AgentState) (c : StatusCall) : Prop :=
  c.status_message_id = st.status_message_id ∧
  st.status_message_id.isSome = true ∧
  (c.effectiveProgress = none → c.emoji = "")

/-- C10: for every invocation of `_update_status`, whatever the transport
updater does — the edit call raising, the create call raising or returning
`None` — the helper returns a plain value: either `none` (in particular on
every failure path, caught by its `except` clause), or the successfully
created status message on the initial-creation path.  It never propagates
an exception to the workflow. -/
theorem update_status_never_raises :
    ∀ (p : Bool) (upd : Except String Bool)
      (crt : Except String (Option StatusMessage)) (progress : Option ℚ)
      (step : ProcessStep) (desc : String) (mid : Option String)
      (emojiStr : String) (spB : Bool),
      update_status p upd crt progress step desc mid emojiStr spB = none ∨
      ∃ m, mid = none ∧ crt = Except.ok (some m) ∧ p = true ∧
        update_status p upd crt progress step desc mid emojiStr spB = some m := by
  intro p upd crt progress step desc mid emojiStr spB
  unfold update_status
  cases p with
  | false => exact Or.inl rfl
  | true =>
    cases mid with
    | some m => cases upd <;> exact Or.inl rfl
    | none =>
      cases crt with
      | error e => exact Or.inl rfl
      | ok m =>
        cases m with
        | none => exact Or.inl rfl
        | some msg => exact Or.inr ⟨msg, rfl, rfl, rfl, rfl⟩

/-- C9 counterexample: when processing a dequeued message raises, the
worker iteration of `_message_worker` emits no status update at all — it
only logs — while the claim requires a generic failure status update; the
loop does continue. -/
theorem worker_emits_no_status_update :
    (message_worker_step (WorkerEvent.exn "boom")).emitted = [] ∧
    (message_worker_step (WorkerEvent.exn "boom")).continue_loop = true ∧
    (message_worker_step (WorkerEvent.exn "boom")).logged = ["消息处理失败: boom"] :=
  ⟨rfl, rfl, rfl⟩

/-- C9 amended: an uncaught exception escaping a run makes the worker log
the error and continue its dequeue loop — it emits no status update itself
(failure narration happens inside `process` and the router) — and no run's
exception terminates the worker task; only cancellation breaks the loop. -/
theorem worker_survives_exceptions :
    ∀ (e : String) (rest : List WorkerEvent),
      (message_worker_step (WorkerEvent.exn e)).emitted = [] ∧
      (message_worker_step (WorkerEvent.exn e)).logged = ["消息处理失败: " ++ e] ∧
      (message_worker_step (WorkerEvent.exn e)).continue_loop = true ∧
      message_worker_run (WorkerEvent.exn e :: rest) =
        message_worker_step (WorkerEvent.exn e) :: message_worker_run rest ∧
      message_worker_run (WorkerEvent.cancelled :: rest) =
        [message_worker_step WorkerEvent.cancelled] :=
  fun _ _ => ⟨rfl, rfl, rfl, rfl, rfl⟩

/-- C7 counterexample: `_content_precheck` does not convert a classifier
exception into state fields — its `except` clause re-raises, so the
transition's result is the propagated exception and no state with
`error_message` is returned. -/
theorem precheck_reraises :
    (content_precheck { envOk with analyze := Except.error "boom" } stBase).2 =
      Except.error "boom" ∧
    ∀ st', (content_precheck { envOk with analyze := Except.error "boom" }
      stBase).2 ≠ Except.ok st' := by
  refine ⟨rfl, fun st' h => ?_⟩
  rw [show (content_precheck { envOk with analyze := Except.error "boom" }
    stBase).2 = Except.error "boom" from rfl] at h
  exact Except.noConfusion h

/-- C7 amended: every transition function except the precheck —
`format_content`, `save_notion`, `extract_tasks` and `create_tasks` — catches
its own exception and converts it into state fields (`error_message` set,
`next=END`); `precheck`, however, re-raises, and the propagated exception is
only caught at the `process` boundary, which emits the stripped failure
status update as the run's last status call and returns the exception as the
run's error result. -/
theorem error_conversion_amended (env : Env) (st st2 : AgentState)
    (text e e2 mid : String) (fr : FormatResult)
    (h1 : env.analyze = Except.error e) (h2 : env.format = Except.error e)
    (h3 : env.add_note = Except.error e) (h4 : env.extract = Except.error e)
    (h5 : st.format_content_result = some fr)
    (h6 : emitGuard env st2 = true)
    (h7 : st2.tasks.getD [] = [] ∨ env.dida_service = true)
    (h8 : build_report env st2 (st2.tasks.getD []) = Except.error e2)
    (h9 : env.updater = true) (h10 : env.create_status = some mid) :
    (content_precheck env st).2 = Except.error e ∧
    format_content env st = { st with error_message := some e, next := END } ∧
    (save_to_notion env st).2 =
      { st with error_message := some (simplify_error e),
                save_success := some false, next := END } ∧
    (extract_tasks env st).2 =
      { st with error_message := some ("提取任务失败: " ++ e), next := END } ∧
    (create_tasks env st2).2 =
      { st2 with error_message := some e2, next := END } ∧
    (run_trace env text).getLast? =
      some (mkCall .failed .error (some 0.0) ("❌ " ++ simplify_error e)
        (some mid) "" false) ∧
    run_result env text = Except.error e := by
  refine ⟨?_, ?_, ?_, ?_, ?_, ?_, ?_⟩
  · simp [content_precheck, h1]
  · simp [format_content, h2]
  · simp [save_to_notion, h5, h3]
  · simp [extract_tasks, h4]
  · unfold create_tasks create_report_phase
    by_cases ht : st2.tasks.getD [] ≠ []
    · rw [if_pos ht]
      rcases h7 with h | h
      · exact absurd h ht
      · rw [show (!env.dida_service) = false by rw [h]; rfl]
        simp only [Bool.false_eq_true, if_false]
        rw [if_pos h6, h8]
    · rw [if_neg ht, if_pos h6, h8]
  · have htr : run_trace env text =
        [mkCall .processing .initialized (some 0.1) "🚀 开始处理..."
           none "" true,
         mkCall .processing .preprocessing (some 0.2) "正在预检内容..."
           (some mid) "🔍" true,
         mkCall .failed .error (some 0.0) ("❌ " ++ simplify_error e)
           (some mid) "" false] := by
      unfold run_trace process run_workflow content_precheck
      simp [h1, h9, h10, init_state, run_sid, emitGuard, mkCall]
    rw [htr]
    rfl
  · simp [run_result, process, run_workflow, content_precheck, h1]

/-- C7 witness: all hypotheses of `error_conversion_amended` hold at a
concrete failing environment: `create_tasks` converts its report-build
exception into state fields, and a precheck failure surfaces as the
stripped terminal failure update and as the run's error result. -/
theorem error_conversion_amended_witness :
    envAllErrBadDate.analyze = Except.error "X: b" ∧
    (create_tasks envAllErrBadDate
        { stBase with tasks := some [taskBadDate] }).2 =
      { stBase with tasks := some [taskBadDate],
                    error_message := some "Invalid isoformat string: bad",
                    next := END } ∧
    (run_trace envAllErrBadDate "hi").getLast? =
      some (mkCall .failed .error (some 0.0)
        ("❌ " ++ simplify_error "X: b") (some "42") "" false) ∧
    run_result envAllErrBadDate "hi" = Except.error "X: b" := by
  have h := error_conversion_amended envAllErrBadDate
    { stBase with format_content_result := some frA }
    { stBase with tasks := some [taskBadDate] }
    "hi" "X: b" "Invalid isoformat string: bad" "42" frA
    rfl rfl rfl rfl rfl rfl (Or.inr rfl) rfl rfl rfl
  exact ⟨rfl, h.2.2.2.2.1, h.2.2.2.2.2.1, h.2.2.2.2.2.2⟩

/-- Helper: `item_due` depends only on the date parser. -/
theorem item_due_congr (env env' : Env) (t : TaskDict)
    (hg : env'.parse_iso = env.parse_iso) :
    item_due env' t = item_due env t := by
  unfold item_due
  rw [hg]

/-- Helper: `item_step` depends only on the project map, the date parser
and the task-store call at the item's own index. -/
theorem item_step_congr (env env' : Env) (i : Nat) (t : TaskDict)
    (hp : env'.projects = env.projects) (hg : env'.parse_iso = env.parse_iso)
    (hf : env'.add_task i = env.add_task i) :
    item_step env' i t = item_step env i t := by
  unfold item_step
  rw [hp, item_due_congr env env' t hg, hf]

/-- Helper: the per-task loop output over a suffix of the batch is
unchanged by any modification of the task-store behaviour at indices
before the suffix. -/
theorem create_loop_congr (env env' : Env)
    (hp : env'.projects = env.projects) (hg : env'.parse_iso = env.parse_iso) :
    ∀ (ts : List TaskDict) (k : Nat),
      (∀ j, k ≤ j → env'.add_task j = env.add_task j) →
      create_loop env' k ts = create_loop env k ts := by
  intro ts
  induction ts with
  | nil => intro k _; rfl
  | cons t rest ih =>
    intro k hk
    unfold create_loop
    rw [item_step_congr env env' k t hp hg (hk k le_rfl),
      ih (k + 1) (fun j hj => hk j (le_trans (Nat.le_succ k) hj))]

/-- Helper: a batch item whose due-date handling succeeds has a successful
`item_due` value. -/
theorem item_due_of_due_ok (env : Env) (t : TaskDict)
    (hd : due_ok env t = true) : ∃ d, item_due env t = Except.ok d := by
  unfold due_ok at hd
  unfold item_due
  cases hdue : t.dueDate with
  | none => exact ⟨none, rfl⟩
  | some s =>
    rw [hdue] at hd
    by_cases hs : s = ""
    · exact ⟨none, by simp [hs]⟩
    · cases hpi : env.parse_iso s with
      | error e2 => exfalso; simp [hs, hpi] at hd
      | ok fmt => exact ⟨some fmt, by simp [hs, hpi]⟩

/-- C6: a failing item of the extracted-task batch — an unresolvable
non-empty project name, or an exception from the task-store call — makes
the per-task loop of `_create_tasks` record exactly one warning/failure
line for that item, and the remaining items of the batch are still
processed, with results independent of anything that happened at the
failing index. -/
theorem task_batch_isolation (env : Env) (i : Nat) (t : TaskDict)
    (rest : List TaskDict)
    (hfail : item_warns env t = true ∨
      (item_warns env t = false ∧ due_ok env t = true ∧
        ∃ e, env.add_task i = Except.error e)) :
    (item_step env i t = ["⚠️ 找不到项目: " ++ pyStr t.projectId] ∨
      ∃ msg, item_step env i t =
        ["❌ 创建任务 \x27" ++ pyStr t.title ++ "\x27 失败: " ++ msg]) ∧
    create_loop env i (t :: rest) =
      item_step env i t ++ create_loop env (i + 1) rest ∧
    (∀ env' : Env, env'.projects = env.projects →
      env'.parse_iso = env.parse_iso →
      (∀ j, j ≠ i → env'.add_task j = env.add_task j) →
      create_loop env' (i + 1) rest = create_loop env (i + 1) rest) := by
  refine ⟨?_, rfl, ?_⟩
  · rcases hfail with hw | ⟨hw, hd, e, he⟩
    · unfold item_warns at hw
      cases hproj : t.projectId with
      | none => rw [hproj] at hw; exact absurd hw (by simp)
      | some n =>
        rw [hproj] at hw
        refine Or.inl ?_
        unfold item_step
        rw [hproj]
        rw [if_pos]
        exact hw
    · unfold item_warns at hw
      have hcond : (!optStrTruthy (match t.projectId with
          | none => none
          | some n => project_map_get env.projects n) &&
          optStrTruthy t.projectId) = false := by
        cases hproj : t.projectId with
        | none => simp [optStrTruthy]
        | some n => rw [hproj] at hw; exact hw
      obtain ⟨d, hdres⟩ := item_due_of_due_ok env t hd
      refine Or.inr ⟨e, ?_⟩
      unfold item_step
      rw [if_neg (by simp [hcond]), hdres, he]
  · intro env' hp hg hf
    exact create_loop_congr env env' hp hg rest (i + 1)
      (fun j hj => hf j (by omega))

/-- C6 witness: in `envOk` the task `taskQ` has an unresolvable non-empty
project name; its item records a warning line and the following item is
still processed. -/
theorem task_batch_isolation_witness :
    item_warns envOk taskQ = true ∧
    (item_step envOk 0 taskQ = ["⚠️ 找不到项目: " ++ pyStr taskQ.projectId] ∨
      ∃ msg, item_step envOk 0 taskQ =
        ["❌ 创建任务 \x27" ++ pyStr taskQ.title ++ "\x27 失败: " ++ msg]) ∧
    create_loop envOk 0 (taskQ :: [taskP]) =
      item_step envOk 0 taskQ ++ create_loop envOk 1 [taskP] :=
  ⟨rfl, (task_batch_isolation envOk 0 taskQ [taskP] (Or.inl rfl)).1,
    (task_batch_isolation envOk 0 taskQ [taskP] (Or.inl rfl)).2.1⟩

/-- Helper: a true emit guard forces a present `status_message_id`. -/
theorem emitGuard_isSome {env : Env} {st : AgentState}
    (hg : emitGuard env st = true) : st.status_message_id.isSome = true := by
  unfold emitGuard at hg
  exact (Bool.and_eq_true _ _ ▸ hg).2

/-- Helper: every status call of `content_precheck` satisfies `CallInv`. -/
theorem content_precheck_calls (env : Env) (st : AgentState) (c : StatusCall)
    (hc : c ∈ (content_precheck env st).1) : CallInv st c := by
  unfold content_precheck at hc
  by_cases hg : emitGuard env st = true
  · cases ha : env.analyze with
    | error e =>
      simp only [ha, hg, if_true] at hc
      simp only [List.mem_singleton] at hc
      subst hc
      exact ⟨rfl, emitGuard_isSome hg,
        fun h => by simp [StatusCall.effectiveProgress, mkCall] at h⟩
    | ok pre =>
      simp only [ha, hg, if_true] at hc
      rcases List.mem_append.mp hc with h1 | h2
      · simp only [List.mem_singleton] at h1
        subst h1
        exact ⟨rfl, emitGuard_isSome hg,
          fun h => by simp [StatusCall.effectiveProgress, mkCall] at h⟩
      · simp only [List.mem_singleton] at h2
        subst h2
        exact ⟨rfl, emitGuard_isSome hg,
          fun h => by simp [StatusCall.effectiveProgress, mkCall] at h⟩
  · cases ha : env.analyze with
    | error e => simp [ha, hg] at hc
    | ok pre => simp [ha, hg] at hc

/-- Helper: every status call of `save_to_notion` satisfies `CallInv`. -/
theorem save_to_notion_calls (env : Env) (st : AgentState) (c : StatusCall)
    (hc : c ∈ (save_to_notion env st).1) : CallInv st c := by
  unfold save_to_notion at hc
  by_cases hg : emitGuard env st = true
  · cases hfc : st.format_content_result with
    | none =>
      simp only [hfc, hg, if_true] at hc
      rcases List.mem_append.mp hc with h1 | h2
      · simp only [List.mem_singleton] at h1
        subst h1
        exact ⟨rfl, emitGuard_isSome hg,
          fun h => by simp [StatusCall.effectiveProgress, mkCall] at h⟩
      · simp only [List.mem_singleton] at h2
        subst h2
        exact ⟨rfl, emitGuard_isSome hg, fun _ => rfl⟩
    | some fr =>
      cases hn : env.add_note with
      | error e =>
        simp only [hfc, hn, hg, if_true] at hc
        rcases List.mem_append.mp hc with h1 | h2
        · simp only [List.mem_singleton] at h1
          subst h1
          exact ⟨rfl, emitGuard_isSome hg,
            fun h => by simp [StatusCall.effectiveProgress, mkCall] at h⟩
        · simp only [List.mem_singleton] at h2
          subst h2
          exact ⟨rfl, emitGuard_isSome hg, fun _ => rfl⟩
      | ok b =>
        cases b with
        | false =>
          simp only [hfc, hn, hg, if_true] at hc
          rcases List.mem_append.mp hc with h1 | h2
          · simp only [List.mem_singleton] at h1
            subst h1
            exact ⟨rfl, emitGuard_isSome hg,
              fun h => by simp [StatusCall.effectiveProgress, mkCall] at h⟩
          · simp only [List.mem_singleton] at h2
            subst h2
            exact ⟨rfl, emitGuard_isSome hg, fun _ => rfl⟩
        | true =>
          simp only [hfc, hn, hg, if_true] at hc
          rcases List.mem_append.mp hc with h1 | h2
          · simp only [List.mem_singleton] at h1
            subst h1
            exact ⟨rfl, emitGuard_isSome hg,
              fun h => by simp [StatusCall.effectiveProgress, mkCall] at h⟩
          · simp only [List.mem_singleton] at h2
            subst h2
            exact ⟨rfl, emitGuard_isSome hg,
              fun h => by simp [StatusCall.effectiveProgress, mkCall] at h⟩
  · cases hfc : st.format_content_result with
    | none => simp [hfc, hg] at hc
    | some fr => cases hn : env.add_note with
      | error e => simp [hfc, hn, hg] at hc
      | ok b => cases b <;> simp [hfc, hn, hg] at hc

/-- Helper: every status call of `extract_tasks` satisfies `CallInv`. -/
theorem extract_tasks_calls (env : Env) (st : AgentState) (c : StatusCall)
    (hc : c ∈ (extract_tasks env st).1) : CallInv st c := by
  unfold extract_tasks at hc
  by_cases hg : emitGuard env st = true
  · cases he : env.extract with
    | ok tasks =>
      simp only [he, hg, if_true] at hc
      simp only [List.mem_singleton] at hc
      subst hc
      exact ⟨rfl, emitGuard_isSome hg,
        fun h => by simp [StatusCall.effectiveProgress, mkCall] at h⟩
    | error e =>
      simp only [he, hg, if_true] at hc
      rcases List.mem_append.mp hc with h1 | h2
      · simp only [List.mem_singleton] at h1
        subst h1
        exact ⟨rfl, emitGuard_isSome hg,
          fun h => by simp [StatusCall.effectiveProgress, mkCall] at h⟩
      · simp only [List.mem_singleton] at h2
        subst h2
        exact ⟨rfl, emitGuard_isSome hg, fun _ => rfl⟩
  · cases he : env.extract with
    | ok tasks => simp [he, hg] at hc
    | error e => simp [he, hg] at hc

/-- Helper: every status call of the report phase either came from the
creation phase or satisfies `CallInv`. -/
theorem create_report_phase_calls (env : Env) (st : AgentState)
    (tasks : List TaskDict) (c1 : List StatusCall) (c : StatusCall)
    (hc : c ∈ (create_report_phase env st tasks c1).1) :
    c ∈ c1 ∨ CallInv st c := by
  unfold create_report_phase at hc
  by_cases hg : emitGuard env st = true
  · cases hbr : build_report env st tasks with
    | ok rep =>
      rw [if_pos hg, hbr] at hc
      rcases List.mem_append.mp hc with h1 | h2
      · exact Or.inl h1
      · simp only [List.mem_singleton] at h2
        subst h2
        exact Or.inr ⟨rfl, emitGuard_isSome hg, fun _ => rfl⟩
    | error e =>
      rw [if_pos hg, hbr] at hc
      rcases List.mem_append.mp hc with h1 | h2
      · exact Or.inl h1
      · simp only [List.mem_singleton] at h2
        subst h2
        exact Or.inr ⟨rfl, emitGuard_isSome hg, fun _ => rfl⟩
  · rw [if_neg hg] at hc
    exact Or.inl hc

/-- Helper: every status call of `create_tasks` satisfies `CallInv`. -/
theorem create_tasks_calls (env : Env) (st : AgentState) (c : StatusCall)
    (hc : c ∈ (create_tasks env st).1) : CallInv st c := by
  have hc1 : ∀ d : StatusCall,
      d ∈ (if emitGuard env st then
        [mkCall .processing .creatingTasks (some 0.98) "正在创建任务..."
          st.status_message_id "" true] else []) → CallInv st d := by
    intro d hd
    by_cases hg : emitGuard env st = true
    · rw [if_pos hg] at hd
      simp only [List.mem_singleton] at hd
      subst hd
      exact ⟨rfl, emitGuard_isSome hg,
        fun h => by simp [StatusCall.effectiveProgress, mkCall] at h⟩
    · rw [if_neg hg] at hd
      exact absurd hd (List.not_mem_nil d)
  unfold create_tasks at hc
  by_cases ht : st.tasks.getD [] ≠ []
  · rw [if_pos ht] at hc
    by_cases hd : env.dida_service = true
    · rw [show (!env.dida_service) = false by rw [hd]; rfl] at hc
      simp only [Bool.false_eq_true, if_false] at hc
      rcases create_report_phase_calls env st (st.tasks.getD []) _ c hc with h1 | h2
      · exact hc1 c h1
      · exact h2
    · rw [show (!env.dida_service) = true by
        rw [Bool.eq_false_iff.mpr (fun h => hd h)]; rfl] at hc
      simp only [if_true] at hc
      exact hc1 c hc
  · rw [if_neg ht] at hc
    rcases create_report_phase_calls env st (st.tasks.getD []) [] c hc with h1 | h2
    · exact absurd h1 (List.not_mem_nil c)
    · exact h2

/-- Helper: `CallInv` transports along equal `status_message_id`s. -/
theorem CallInv.transport {st st' : AgentState} {c : StatusCall}
    (h : CallInv st' c) (hs : st'.status_message_id = st.status_message_id) :
    CallInv st c :=
  ⟨h.1.trans hs, hs ▸ h.2.1, h.2.2⟩

/-- Helper: a successful precheck leaves `status_message_id` unchanged. -/
theorem content_precheck_sid (env : Env) (st st' : AgentState)
    (h : (content_precheck env st).2 = Except.ok st') :
    st'.status_message_id = st.status_message_id := by
  unfold content_precheck at h
  cases ha : env.analyze with
  | error e => rw [ha] at h; exact absurd h (by simp)
  | ok pre =>
    rw [ha] at h
    simp only [Except.ok.injEq] at h
    subst h
    rfl

/-- Helper: `format_content` leaves `status_message_id` unchanged. -/
theorem format_content_sid (env : Env) (st : AgentState) :
    (format_content env st).status_message_id = st.status_message_id := by
  unfold format_content
  cases env.format <;> rfl

/-- Helper: `save_to_notion` leaves `status_message_id` unchanged. -/
theorem save_to_notion_sid (env : Env) (st : AgentState) :
    ((save_to_notion env st).2).status_message_id = st.status_message_id := by
  unfold save_to_notion
  cases st.format_content_result with
  | none => rfl
  | some fr =>
    cases env.add_note with
    | error e => rfl
    | ok b => cases b <;> rfl

/-- Helper: `extract_tasks` leaves `status_message_id` unchanged. -/
theorem extract_tasks_sid (env : Env) (st : AgentState) :
    ((extract_tasks env st).2).status_message_id = st.status_message_id := by
  unfold extract_tasks
  cases env.extract <;> rfl

/-- Helper: `create_tasks` leaves `status_message_id` unchanged. -/
theorem create_tasks_sid (env : Env) (st : AgentState) :
    ((create_tasks env st).2).status_message_id = st.status_message_id := by
  simp only [create_tasks, create_report_phase]
  repeat' split
  all_goals rfl

/-- Helper: every status call emitted by the workflow of one run satisfies
`CallInv` for the initial state. -/
theorem run_workflow_calls (env : Env) (st0 : AgentState) (c : StatusCall)
    (hc : c ∈ (run_workflow env st0).1) : CallInv st0 c := by
  unfold run_workflow at hc
  cases hpc : content_precheck env st0 with
  | mk c1 r1 =>
    rw [hpc] at hc
    cases r1 with
    | error e =>
      exact content_precheck_calls env st0 c (by rw [hpc]; exact hc)
    | ok st1 =>
      have hsid1 : st1.status_message_id = st0.status_message_id :=
        content_precheck_sid env st0 st1 (by rw [hpc])
      simp only [url_summary, ite_self] at hc
      cases hsv : save_to_notion env (format_content env st1) with
      | mk c3 st4 =>
        rw [hsv] at hc
        have hsid3 : (format_content env st1).status_message_id =
            st0.status_message_id := (format_content_sid env st1).trans hsid1
        have hsid4 : st4.status_message_id = st0.status_message_id := by
          have := save_to_notion_sid env (format_content env st1)
          rw [hsv] at this
          exact this.trans hsid3
        by_cases hr : route_after_save st4 = "extract_tasks"
        · rw [if_pos hr] at hc
          cases hex : extract_tasks env st4 with
          | mk c4 st5 =>
            rw [hex] at hc
            have hsid5 : st5.status_message_id = st0.status_message_id := by
              have := extract_tasks_sid env st4
              rw [hex] at this
              exact this.trans hsid4
            cases hct : create_tasks env st5 with
            | mk c5 st6 =>
              rw [hct] at hc
              simp only [List.append_assoc, List.mem_append] at hc
              rcases hc with h1 | h3 | h4 | h5
              · exact content_precheck_calls env st0 c (by rw [hpc]; exact h1)
              · refine (save_to_notion_calls env (format_content env st1) c
                  ?_).transport hsid3
                rw [hsv]; exact h3
              · refine (extract_tasks_calls env st4 c ?_).transport hsid4
                rw [hex]; exact h4
              · refine (create_tasks_calls env st5 c ?_).transport hsid5
                rw [hct]; exact h5
        · rw [if_neg hr] at hc
          simp only [List.mem_append] at hc
          rcases hc with h1 | h3
          · exact content_precheck_calls env st0 c (by rw [hpc]; exact h1)
          · refine (save_to_notion_calls env (format_content env st1) c
              ?_).transport hsid3
            rw [hsv]; exact h3

/-- C1: for every status update of a run whose effective progress value is
absent (`show_progress` false or `progress` `None`) — in particular the
terminal report and every error text — the rendered status text is the
description verbatim: no progress bar and no percentage are appended. -/
theorem absent_progress_renders_description (env : Env) (text : String)
    (c : StatusCall) (hm : c ∈ run_trace env text)
    (hp : c.effectiveProgress = none) : c.renderedText = c.description := by
  have hemoji : c.emoji = "" := by
    unfold run_trace process at hm
    cases hw : run_workflow env (init_state env text) with
    | mk cs rest =>
      cases rest with
      | mk vs r =>
        cases r with
        | ok stF =>
          rw [hw] at hm
          simp only [List.mem_append] at hm
          rcases hm with h0 | hcs
          · by_cases hu : env.updater = true
            · rw [if_pos hu] at h0
              simp only [List.mem_singleton] at h0
              subst h0
              rfl
            · rw [if_neg hu] at h0
              exact absurd h0 (List.not_mem_nil c)
          · exact (run_workflow_calls env (init_state env text) c
              (by rw [hw]; exact hcs)).2.2 hp
        | error e =>
          rw [hw] at hm
          simp only [List.append_assoc, List.mem_append] at hm
          rcases hm with h0 | hcs | hec
          · by_cases hu : env.updater = true
            · rw [if_pos hu] at h0
              simp only [List.mem_singleton] at h0
              subst h0
              rfl
            · rw [if_neg hu] at h0
              exact absurd h0 (List.not_mem_nil c)
          · exact (run_workflow_calls env (init_state env text) c
              (by rw [hw]; exact hcs)).2.2 hp
          · by_cases hgu : (env.updater && (run_sid env).isSome) = true
            · rw [if_pos hgu] at hec
              simp only [List.mem_singleton] at hec
              subst hec
              rfl
            · rw [if_neg hgu] at hec
              exact absurd hec (List.not_mem_nil c)
  unfold StatusCall.renderedText format_status_text
  rw [hp, hemoji]
  simp

/-- C1 witness: the terminal error text of a run whose precheck raised is
rendered verbatim. -/
theorem absent_progress_renders_description_witness :
    (mkCall .failed .error (some 0.0) "❌ boom" (some "42") "" false) ∈
      run_trace envPre "x" ∧
    (mkCall .failed .error (some 0.0) "❌ boom"
      (some "42") "" false).renderedText = "❌ boom" := by
  have htr : run_trace envPre "x" =
      [mkCall .processing .initialized (some 0.1) "🚀 开始处理..." none "" true,
       mkCall .processing .preprocessing (some 0.2) "正在预检内容..."
         (some "42") "🔍" true,
       mkCall .failed .error (some 0.0) "❌ boom" (some "42") "" false] := by rfl
  have hm : (mkCall .failed .error (some 0.0) "❌ boom" (some "42") "" false) ∈
      run_trace envPre "x" := by rw [htr]; simp
  exact ⟨hm,
    absent_progress_renders_description envPre "x"
      (mkCall .failed .error (some 0.0) "❌ boom" (some "42") "" false)
      hm rfl⟩

/-- C2: every status call issued after the initial status-message creation
of a run carries the stored `status_message_id` — the id returned by the
initial creation — and is therefore an in-place edit of that same transport
message; no later call is a transport-create until (and including) the
run's terminal update. -/
theorem subsequent_updates_edit_same_message (env : Env) (text : String)
    (c : StatusCall) (hc : c ∈ (run_trace env text).drop 1) :
    ∃ mid, env.create_status = some mid ∧ c.status_message_id = some mid ∧
      c.op = ChanOp.edit mid := by
  have finish : c.status_message_id = run_sid env →
      (run_sid env).isSome = true → ∃ mid, env.create_status = some mid ∧
        c.status_message_id = some mid ∧ c.op = ChanOp.edit mid := by
    intro hsid hsome
    obtain ⟨mid, hmid⟩ := Option.isSome_iff_exists.mp hsome
    refine ⟨mid, ?_, ?_, ?_⟩
    · have hms : run_sid env = some mid := hmid
      unfold run_sid at hms
      by_cases hu : env.updater = true
      · rwa [if_pos hu] at hms
      · rw [if_neg hu] at hms
        exact absurd hms (by simp)
    · rw [hsid, hmid]
    · have hcs : c.status_message_id = some mid := by rw [hsid, hmid]
      unfold StatusCall.op
      rw [hcs]
  have hwf : ∀ d : StatusCall, d ∈ (run_workflow env (init_state env text)).1 →
      d.status_message_id = run_sid env ∧ (run_sid env).isSome = true := by
    intro d hd
    have h := run_workflow_calls env (init_state env text) d hd
    exact ⟨h.1, h.2.1⟩
  unfold run_trace process at hc
  cases hw : run_workflow env (init_state env text) with
  | mk cs rest =>
    cases rest with
    | mk vs r =>
      by_cases hu : env.updater = true
      · cases r with
        | ok stF =>
          rw [hw, if_pos hu] at hc
          have hc2 : c ∈ cs := hc
          have h := hwf c (by rw [hw]; exact hc2)
          exact finish h.1 h.2
        | error e =>
          rw [hw, if_pos hu] at hc
          have hc2 : c ∈ cs ++
              (if (env.updater && (run_sid env).isSome) = true then
                [mkCall .failed .error (some 0.0)
                  ("❌ " ++ simplify_error e) (run_sid env) "" false]
              else []) := hc
          rcases List.mem_append.mp hc2 with hcs | hec
          · have h := hwf c (by rw [hw]; exact hcs)
            exact finish h.1 h.2
          · by_cases hgu : (env.updater && (run_sid env).isSome) = true
            · rw [if_pos hgu] at hec
              simp only [List.mem_singleton] at hec
              subst hec
              exact finish rfl (Bool.and_eq_true _ _ ▸ hgu).2
            · rw [if_neg hgu] at hec
              exact absurd hec (List.not_mem_nil c)
      · have hfu : env.updater = false := Bool.eq_false_iff.mpr hu
        cases r with
        | ok stF =>
          rw [hw, if_neg hu] at hc
          have hc2 : c ∈ cs := List.mem_of_mem_drop hc
          have h := hwf c (by rw [hw]; exact hc2)
          exact finish h.1 h.2
        | error e =>
          rw [hw, if_neg hu, hfu] at hc
          have hc2 : c ∈ cs ++ ([] : List StatusCall) := List.mem_of_mem_drop hc
          rcases List.mem_append.mp hc2 with hcs | hec
          · have h := hwf c (by rw [hw]; exact hcs)
            exact finish h.1 h.2
          · exact absurd hec (List.not_mem_nil c)

/-- C2 witness: the second status call of a concrete run edits the message
created first, under the stored id. -/
theorem subsequent_updates_edit_same_message_witness :
    (mkCall .processing .preprocessing (some 0.2) "正在预检内容..."
      (some "42") "🔍" true) ∈ (run_trace envPre "x").drop 1 ∧
    ∃ mid, envPre.create_status = some mid ∧
      (mkCall .processing .preprocessing (some 0.2) "正在预检内容..."
        (some "42") "🔍" true).status_message_id = some mid ∧
      (mkCall .processing .preprocessing (some 0.2) "正在预检内容..."
        (some "42") "🔍" true).op = ChanOp.edit mid := by
  have hm : (mkCall .processing .preprocessing (some 0.2) "正在预检内容..."
      (some "42") "🔍" true) ∈ (run_trace envPre "x").drop 1 := by
    rw [show (run_trace envPre "x").drop 1 =
      [mkCall .processing .preprocessing (some 0.2) "正在预检内容..."
        (some "42") "🔍" true,
       mkCall .failed .error (some 0.0) "❌ boom" (some "42") "" false]
      from rfl]
    simp
  exact ⟨hm, subsequent_updates_edit_same_message envPre "x" _ hm⟩

/-- Helper: `save_ok_b` decides `save_step_succeeds`. -/
theorem save_ok_b_iff (env : Env) :
    save_ok_b env = true ↔ save_step_succeeds env := by
  unfold save_ok_b save_step_succeeds
  cases hf : env.format with
  | error e => simp
  | ok fr =>
    cases hn : env.add_note with
    | error e => simp
    | ok b => cases b <;> simp

/-- Helper: the node list visited by a run whose precheck succeeded,
as a function of the classifier flags and the save outcome. -/
theorem run_visited_eq (env : Env) (text : String) (pre : PrecheckResult)
    (h1 : env.analyze = Except.ok pre) :
    run_visited env text =
      ["precheck"] ++ (if pre.contains_url = true then ["url_summary"] else []) ++
      ["format_content", "save_notion"] ++
      (if (pre.contains_text && save_ok_b env) = true then
        ["extract_tasks", "create_tasks"] else []) := by
  unfold run_visited process run_workflow content_precheck
  rw [h1]
  cases hf : env.format with
  | error e =>
    by_cases hu2 : pre.contains_url = true <;>
      simp [hu2, route_after_url_check, url_summary, format_content,
        save_to_notion, route_after_save, save_ok_b, END, hf, init_state]
  | ok fr =>
    cases hn : env.add_note with
    | error e =>
      by_cases hu2 : pre.contains_url = true <;>
        simp [hu2, route_after_url_check, url_summary, format_content,
          save_to_notion, route_after_save, save_ok_b, END, hf, hn, init_state]
    | ok b =>
      cases b with
      | false =>
        by_cases hu2 : pre.contains_url = true <;>
          simp [hu2, route_after_url_check, url_summary, format_content,
            save_to_notion, route_after_save, save_ok_b, END, hf, hn, init_state]
      | true =>
        by_cases hu2 : pre.contains_url = true <;>
        by_cases htx : pre.contains_text = true <;>
          simp [hu2, htx, route_after_url_check, url_summary, format_content,
            save_to_notion, route_after_save, save_ok_b, END, hf, hn, init_state]

/-- Helper: `content_precheck` emits no completed-status call. -/
theorem content_precheck_no_completed (env : Env) (st : AgentState)
    (c : StatusCall) (hc : c ∈ (content_precheck env st).1) :
    c.status ≠ MessageStatus.completed := by
  unfold content_precheck at hc
  by_cases hg : emitGuard env st = true
  · cases ha : env.analyze with
    | error e =>
      simp [ha, hg, mkCall] at hc
      subst hc
      simp [mkCall]
    | ok pre =>
      simp [ha, hg, mkCall] at hc
      rcases hc with rfl | rfl <;> simp [mkCall]
  · cases ha : env.analyze <;> simp [ha, hg] at hc

/-- Helper: `save_to_notion` emits no completed-status call. -/
theorem save_to_notion_no_completed (env : Env) (st : AgentState)
    (c : StatusCall) (hc : c ∈ (save_to_notion env st).1) :
    c.status ≠ MessageStatus.completed := by
  unfold save_to_notion at hc
  by_cases hg : emitGuard env st = true
  · cases hfc : st.format_content_result with
    | none =>
      simp [hfc, hg, mkCall] at hc
      rcases hc with rfl | rfl <;> simp [mkCall]
    | some fr =>
      cases hn : env.add_note with
      | error e =>
        simp [hfc, hn, hg, mkCall] at hc
        rcases hc with rfl | rfl <;> simp [mkCall]
      | ok b =>
        cases b <;>
        · simp [hfc, hn, hg, mkCall] at hc
          rcases hc with rfl | rfl <;> simp [mkCall]
  · cases hfc : st.format_content_result with
    | none => simp [hfc, hg] at hc
    | some fr =>
      cases hn : env.add_note with
      | error e => simp [hfc, hn, hg] at hc
      | ok b => cases b <;> simp [hfc, hn, hg] at hc

/-- Helper: a completed-status call in a run's trace implies the run
executed the `create_tasks` node. -/
theorem completed_call_requires_create (env : Env) (text : String)
    (c : StatusCall) (hc : c ∈ run_trace env text)
    (hst : c.status = MessageStatus.completed) :
    "create_tasks" ∈ run_visited env text := by
  unfold run_trace process at hc
  unfold run_visited process
  cases hw : run_workflow env (init_state env text) with
  | mk cs rest =>
    cases rest with
    | mk vs r =>
      have hwl : ∀ d : StatusCall, d ∈ cs →
          d.status = MessageStatus.completed → "create_tasks" ∈ vs := by
        intro d hd hds
        have hd2 : d ∈ (run_workflow env (init_state env text)).1 := by
          rw [hw]; exact hd
        have hvs : (run_workflow env (init_state env text)).2.1 = vs := by
          rw [hw]
        rw [← hvs]
        unfold run_workflow at hd2 ⊢
        cases hpc : content_precheck env (init_state env text) with
        | mk c1 r1 =>
          rw [hpc] at hd2
          cases r1 with
          | error e =>
            exact absurd hds (content_precheck_no_completed env
              (init_state env text) d (by rw [hpc]; exact hd2))
          | ok st1 =>
            simp only [url_summary, ite_self] at hd2 ⊢
            cases hsv : save_to_notion env (format_content env st1) with
            | mk c3 st4 =>
              rw [hsv] at hd2
              by_cases hr : route_after_save st4 = "extract_tasks"
              · rw [if_pos hr] at hd2 ⊢
                cases hex : extract_tasks env st4 with
                | mk c4 st5 =>
                  rw [hex] at hd2
                  cases hct : create_tasks env st5 with
                  | mk c5 st6 =>
                    rw [hct] at hd2
                    simp
              · rw [if_neg hr] at hd2 ⊢
                rcases List.mem_append.mp hd2 with h1 | h3
                · exact absurd hds (content_precheck_no_completed env
                    (init_state env text) d (by rw [hpc]; exact h1))
                · exact absurd hds (save_to_notion_no_completed env
                    (format_content env st1) d (by rw [hsv]; exact h3))
      by_cases hu : env.updater = true
      · cases r with
        | ok stF =>
          rw [hw, if_pos hu] at hc
          have hc2 : c ∈ (mkCall .processing .initialized (some 0.1)
              "🚀 开始处理..." none "" true) :: cs := hc
          rcases List.mem_cons.mp hc2 with rfl | hcs
          · exact absurd hst (by simp [mkCall])
          · exact hwl c hcs hst
        | error e =>
          rw [hw, if_pos hu] at hc
          have hc2 : c ∈ (mkCall .processing .initialized (some 0.1)
              "🚀 开始处理..." none "" true) :: (cs ++
              (if (env.updater && (run_sid env).isSome) = true then
                [mkCall .failed .error (some 0.0)
                  ("❌ " ++ simplify_error e) (run_sid env) "" false]
              else [])) := hc
          rcases List.mem_cons.mp hc2 with rfl | h1
          · exact absurd hst (by simp [mkCall])
          · rcases List.mem_append.mp h1 with hcs | hec
            · exact hwl c hcs hst
            · by_cases hgu : (env.updater && (run_sid env).isSome) = true
              · rw [if_pos hgu] at hec
                simp only [List.mem_singleton] at hec
                subst hec
                exact absurd hst (by simp [mkCall])
              · rw [if_neg hgu] at hec
                exact absurd hec (List.not_mem_nil c)
      · cases r with
        | ok stF =>
          rw [hw, if_neg hu] at hc
          have hc2 : c ∈ cs := hc
          exact hwl c hc2 hst
        | error e =>
          have hfu : env.updater = false := Bool.eq_false_iff.mpr hu
          rw [hw, if_neg hu, hfu] at hc
          have hc2 : c ∈ cs ++ ([] : List StatusCall) := hc
          rcases List.mem_append.mp hc2 with hcs | hec
          · exact hwl c hcs hst
          · exact absurd hec (List.not_mem_nil c)

/-- C4: after a successful precheck, the route following `save_notion`
enters `extract_tasks` exactly when the classifier reported text content
and the save step succeeded; otherwise the run goes straight to the
terminal state — `extract_tasks` and `create_tasks` are skipped and no
terminal completion report is emitted. -/
theorem route_after_save_gate (env : Env) (text : String)
    (pre : PrecheckResult) (h1 : env.analyze = Except.ok pre) :
    ("extract_tasks" ∈ run_visited env text ↔
      (pre.contains_text = true ∧ save_step_succeeds env)) ∧
    ((pre.contains_text = false ∨ ¬ save_step_succeeds env) →
      "extract_tasks" ∉ run_visited env text ∧
      "create_tasks" ∉ run_visited env text ∧
      ∀ c ∈ run_trace env text, c.status ≠ MessageStatus.completed) := by
  have hv := run_visited_eq env text pre h1
  constructor
  · constructor
    · intro hmem
      by_cases hcond : (pre.contains_text && save_ok_b env) = true
      · exact ⟨(Bool.and_eq_true _ _ ▸ hcond).1,
          (save_ok_b_iff env).mp (Bool.and_eq_true _ _ ▸ hcond).2⟩
      · exfalso
        have hb : (pre.contains_text && save_ok_b env) = false :=
          Bool.eq_false_iff.mpr hcond
        rw [hv] at hmem
        by_cases hu2 : pre.contains_url = true <;> simp [hb, hu2] at hmem
    · rintro ⟨htx, hss⟩
      rw [hv]
      have hb : (pre.contains_text && save_ok_b env) = true := by
        rw [htx, (save_ok_b_iff env).mpr hss]
        rfl
      by_cases hu2 : pre.contains_url = true <;> simp [hb, hu2]
  · intro hfail
    have hb : (pre.contains_text && save_ok_b env) = false := by
      rcases hfail with h | h
      · rw [h]
        rfl
      · have hsb : save_ok_b env = false := by
          cases hsb2 : save_ok_b env
          · rfl
          · exact absurd ((save_ok_b_iff env).mp hsb2) h
        rw [hsb, Bool.and_false]
    have hnotv : "create_tasks" ∉ run_visited env text := by
      rw [hv]
      by_cases hu2 : pre.contains_url = true <;> simp [hb, hu2]
    refine ⟨?_, hnotv, ?_⟩
    · rw [hv]
      by_cases hu2 : pre.contains_url = true <;> simp [hb, hu2]
    · intro c hc hst
      exact hnotv (completed_call_requires_create env text c hc hst)

/-- C4 witness: in the fully successful environment the route after the
save step enters `extract_tasks`. -/
theorem route_after_save_gate_witness :
    envOk.analyze = Except.ok preT ∧
    "extract_tasks" ∈ run_visited envOk "hello" :=
  ⟨rfl, (route_after_save_gate envOk "hello" preT rfl).1.mpr
    ⟨rfl, ⟨frA, rfl⟩, rfl⟩⟩

/-- Helper: when every date-parser call succeeds, the per-task report
section builds without raising. -/
theorem report_task_lines_ok (env : Env)
    (hg : ∀ s, ∃ r, env.parse_iso s = Except.ok r) (n : Nat) :
    ∀ l : List (Nat × TaskDict), ∃ out,
      report_task_lines env n l = Except.ok out := by
  intro l
  induction l with
  | nil => exact ⟨[], rfl⟩
  | cons p rest ih =>
    obtain ⟨out, hout⟩ := ih
    cases p with
    | mk i task =>
      unfold report_task_lines
      cases hdue : task.dueDate with
      | none =>
        simp only [report_due]
        rw [hout]
        exact ⟨_, rfl⟩
      | some s =>
        simp only [report_due]
        by_cases hs : s ≠ ""
        · obtain ⟨r, hr⟩ := hg s
          rw [if_pos hs, hr, hout]
          exact ⟨_, rfl⟩
        · rw [if_neg hs, hout]
          exact ⟨_, rfl⟩

/-- Helper: when every date-parser call succeeds, the completion report
builds without raising. -/
theorem build_report_ok (env : Env) (st : AgentState) (tasks : List TaskDict)
    (hg : ∀ s, ∃ r, env.parse_iso s = Except.ok r) :
    ∃ rep, build_report env st tasks = Except.ok rep := by
  unfold build_report
  by_cases ht : tasks ≠ []
  · obtain ⟨out, hout⟩ :=
      report_task_lines_ok env hg tasks.length (List.enumFrom 1 tasks)
    rw [if_pos ht, hout]
    exact ⟨_, rfl⟩
  · rw [if_neg ht]
    exact ⟨_, rfl⟩

/-- Helper: the status calls of `create_tasks` when the report builds: the
optional 0.98 creation update followed by the terminal report update. -/
theorem create_tasks_trace_eq (env : Env) (st : AgentState)
    (hg : emitGuard env st = true)
    (hdd : st.tasks.getD [] = [] ∨ env.dida_service = true)
    (rep : List String)
    (hbr : build_report env st (st.tasks.getD []) = Except.ok rep) :
    (create_tasks env st).1 =
      (if st.tasks.getD [] ≠ [] then
        [mkCall .processing .creatingTasks (some 0.98) "正在创建任务..."
          st.status_message_id "" true]
      else []) ++
      [mkCall .completed .completed none
        ((String.intercalate "\n" rep).trim) st.status_message_id "" false] := by
  unfold create_tasks create_report_phase
  by_cases ht : st.tasks.getD [] ≠ []
  · rw [if_pos ht, if_pos ht, if_pos hg]
    rcases hdd with h | h
    · exact absurd h ht
    · rw [show (!env.dida_service) = false by rw [h]; rfl]
      simp only [Bool.false_eq_true, if_false]
      rw [if_pos hg, hbr]
  · rw [if_neg ht, if_neg ht, if_pos hg, hbr]

/-- C3 counterexample: a run that reaches `create_tasks` with one extracted
task while the Dida365 service is unavailable emits no terminal report at
all — the function returns early with `请先配置滴答清单服务` — refuting the
claim that every run reaching CREATE_TASKS emits the final report. -/
theorem create_tasks_report_skipped_without_service :
    "create_tasks" ∈ run_visited envNoService "x" ∧
    (∀ c ∈ run_trace envNoService "x", c.status ≠ MessageStatus.completed) ∧
    run_error_message envNoService "x" = some "请先配置滴答清单服务" := by
  refine ⟨?_, ?_, rfl⟩
  · rw [show run_visited envNoService "x" =
      ["precheck", "format_content", "save_notion", "extract_tasks",
       "create_tasks"] from rfl]
    simp
  · intro c hc
    rw [show run_trace envNoService "x" =
      [mkCall .processing .initialized (some 0.1) "🚀 开始处理..." none "" true,
       mkCall .processing .preprocessing (some 0.2) "正在预检内容..."
         (some "42") "🔍" true,
       mkCall .processing .preprocessing (some 0.3) "检测到文本内容"
         (some "42") "✨" true,
       mkCall .processing .savingToNotion (some 0.7) "💾 正在保存到 Notion..."
         (some "42") "" true,
       mkCall .processing .savingToNotion (some 0.8) "已保存到 Notion"
         (some "42") "✅" true,
       mkCall .processing .taskExtraction (some 0.95) "正在提取任务..."
         (some "42") "📌" true,
       mkCall .processing .creatingTasks (some 0.98) "正在创建任务..."
         (some "42") "" true] from rfl] at hc
    simp only [List.mem_cons, List.not_mem_nil, or_false] at hc
    rcases hc with rfl | rfl | rfl | rfl | rfl | rfl | rfl <;> simp [mkCall]

/-- C3 amended: every run that reaches `create_tasks` through a successful
extraction — with the status channel present — emits the completion report
as its final status update, with `progress=None` and no progress bar,
regardless of the extracted batch being empty and regardless of per-item
creation outcomes, provided the Dida365 service is available whenever the
batch is non-empty and the report's due-date strings parse. -/
theorem create_tasks_report_amended (text mid : String) (pre : PrecheckResult)
    (fr : FormatResult) (ts : List TaskDict) (dida : Bool)
    (ps : List (String × String)) (f : Nat → Except String Bool)
    (g : String → Except String String)
    (hpre : pre.contains_text = true)
    (hg : ∀ s, ∃ r, g s = Except.ok r)
    (hd : ts = [] ∨ dida = true) :
    "create_tasks" ∈ run_visited (successEnv mid pre fr ts dida ps f g) text ∧
    ∃ rep, (run_trace (successEnv mid pre fr ts dida ps f g) text).getLast? =
      some (mkCall .completed .completed none rep (some mid) "" false) := by
  constructor
  · have hv := run_visited_eq (successEnv mid pre fr ts dida ps f g) text pre rfl
    rw [hv]
    have hso : save_ok_b (successEnv mid pre fr ts dida ps f g) = true := rfl
    by_cases hu2 : pre.contains_url = true <;> simp [hpre, hso, hu2]
  · obtain ⟨rep, hbr⟩ := build_report_ok (successEnv mid pre fr ts dida ps f g)
      { text_content := text, media_files := [], background := "",
        status_message_id := some mid, precheck_result := some pre,
        format_content_result := some fr, tasks := some ts,
        save_success := some true, error_message := none,
        next := "create_tasks" } ts hg
    refine ⟨(String.intercalate "\n" rep).trim, ?_⟩
    have htr := create_tasks_trace_eq (successEnv mid pre fr ts dida ps f g)
      { text_content := text, media_files := [], background := "",
        status_message_id := some mid, precheck_result := some pre,
        format_content_result := some fr, tasks := some ts,
        save_success := some true, error_message := none,
        next := "create_tasks" } rfl hd rep hbr
    by_cases hu2 : pre.contains_url = true <;>
    · rw [show run_trace (successEnv mid pre fr ts dida ps f g) text =
        [mkCall .processing .initialized (some 0.1) "🚀 开始处理..." none "" true,
         mkCall .processing .preprocessing (some 0.2) "正在预检内容..."
           (some mid) "🔍" true,
         mkCall .processing .preprocessing (some 0.3)
           (get_precheck_status_text pre) (some mid) "✨" true,
         mkCall .processing .savingToNotion (some 0.7) "💾 正在保存到 Notion..."
           (some mid) "" true,
         mkCall .processing .savingToNotion (some 0.8) "已保存到 Notion"
           (some mid) "✅" true,
         mkCall .processing .taskExtraction (some 0.95) "正在提取任务..."
           (some mid) "📌" true] ++
        (create_tasks (successEnv mid pre fr ts dida ps f g)
          { text_content := text, media_files := [], background := "",
            status_message_id := some mid, precheck_result := some pre,
            format_content_result := some fr, tasks := some ts,
            save_success := some true, error_message := none,
            next := "create_tasks" }).1 from by
          unfold run_trace process run_workflow content_precheck format_content
            save_to_notion extract_tasks
          simp [successEnv, route_after_url_check, url_summary, route_after_save,
            init_state, run_sid, emitGuard, hpre, hu2, END, mkCall]]
      rw [htr]
      rw [show ∀ (l1 l2 : List StatusCall) (a : StatusCall),
          l1 ++ (l2 ++ [a]) = (l1 ++ l2) ++ [a] from
          fun l1 l2 a => (List.append_assoc l1 l2 [a]).symm,
        List.getLast?_concat]

/-- C3 witness: a concrete successful run with an empty extracted batch
reaches `create_tasks`, and its hypotheses hold. -/
theorem create_tasks_report_amended_witness :
    preT.contains_text = true ∧
    "create_tasks" ∈ run_visited (successEnv "42" preT frA [] true
      [("P", "p1")] (fun _ => Except.ok true)
      (fun _ => Except.ok "2025-01-01 10:00")) "hello" :=
  ⟨rfl, (create_tasks_report_amended "hello" "42" preT frA [] true
    [("P", "p1")] (fun _ => Except.ok true)
    (fun _ => Except.ok "2025-01-01 10:00") rfl
    (fun _ => ⟨"2025-01-01 10:00", rfl⟩) (Or.inl rfl)).1⟩

/-- Helper: the status-call trace of a fully successful run is the fixed
progress ladder followed by the calls of `create_tasks` applied to the
post-extraction state. -/
theorem success_trace_eq (text mid : String) (pre : PrecheckResult)
    (fr : FormatResult) (ts : List TaskDict) (dida : Bool)
    (ps : List (String × String)) (f : Nat → Except String Bool)
    (g : String → Except String String)
    (hpre : pre.contains_text = true) :
    run_trace (successEnv mid pre fr ts dida ps f g) text =
      [mkCall .processing .initialized (some 0.1) "🚀 开始处理..." none "" true,
       mkCall .processing .preprocessing (some 0.2) "正在预检内容..."
         (some mid) "🔍" true,
       mkCall .processing .preprocessing (some 0.3)
         (get_precheck_status_text pre) (some mid) "✨" true,
       mkCall .processing .savingToNotion (some 0.7) "💾 正在保存到 Notion..."
         (some mid) "" true,
       mkCall .processing .savingToNotion (some 0.8) "已保存到 Notion"
         (some mid) "✅" true,
       mkCall .processing .taskExtraction (some 0.95) "正在提取任务..."
         (some mid) "📌" true] ++
      (create_tasks (successEnv mid pre fr ts dida ps f g)
        (post_extract_state text mid pre fr ts)).1 := by
  unfold run_trace process run_workflow content_precheck format_content
    save_to_notion extract_tasks
  by_cases hu2 : pre.contains_url = true <;>
    simp [successEnv, route_after_url_check, url_summary, route_after_save,
      init_state, run_sid, emitGuard, hpre, hu2, END, mkCall,
      post_extract_state]

/-- C8: in every successful run — all capability calls succeed, text was
detected, the report builds — the progress values emitted through the
status channel are monotonically non-decreasing, and the final status
update is the completed report with no progress value. -/
theorem progress_monotone_on_success (text mid : String) (pre : PrecheckResult)
    (fr : FormatResult) (ts : List TaskDict) (dida : Bool)
    (ps : List (String × String)) (f : Nat → Except String Bool)
    (g : String → Except String String)
    (hpre : pre.contains_text = true)
    (hg : ∀ s, ∃ r, g s = Except.ok r)
    (hd : ts = [] ∨ dida = true) :
    List.Chain' (· ≤ ·)
      ((run_trace (successEnv mid pre fr ts dida ps f g) text).filterMap
        (fun c => c.effectiveProgress)) ∧
    ∃ c, (run_trace (successEnv mid pre fr ts dida ps f g) text).getLast? =
      some c ∧ c.effectiveProgress = none ∧
      c.status = MessageStatus.completed := by
  obtain ⟨rep, hbr⟩ := build_report_ok (successEnv mid pre fr ts dida ps f g)
    (post_extract_state text mid pre fr ts) ts hg
  have hbr2 : build_report (successEnv mid pre fr ts dida ps f g)
      (post_extract_state text mid pre fr ts)
      ((post_extract_state text mid pre fr ts).tasks.getD []) =
      Except.ok rep := hbr
  have htr := create_tasks_trace_eq (successEnv mid pre fr ts dida ps f g)
    (post_extract_state text mid pre fr ts) rfl hd rep hbr2
  rw [success_trace_eq text mid pre fr ts dida ps f g hpre, htr]
  constructor
  · by_cases ht : ts = []
    · rw [show (post_extract_state text mid pre fr ts).tasks.getD [] = ts
        from rfl, ht]
      simp only [ne_eq, not_true_eq_false, if_false, List.nil_append,
        List.filterMap_append, List.filterMap_cons, List.filterMap_nil,
        StatusCall.effectiveProgress, mkCall, if_true, ite_true]
      norm_num [List.chain'_cons, post_extract_state]
    · rw [show (post_extract_state text mid pre fr ts).tasks.getD [] = ts
        from rfl, if_pos ht]
      simp only [List.filterMap_append, List.filterMap_cons,
        List.filterMap_nil, StatusCall.effectiveProgress, mkCall, if_true,
        ite_true]
      norm_num [List.chain'_cons, post_extract_state]
  · refine ⟨mkCall .completed .completed none
      ((String.intercalate "\n" rep).trim)
      (post_extract_state text mid pre fr ts).status_message_id "" false,
      ?_, rfl, rfl⟩
    rw [show ∀ (l1 l2 : List StatusCall) (a : StatusCall),
        l1 ++ (l2 ++ [a]) = (l1 ++ l2) ++ [a] from
        fun l1 l2 a => (List.append_assoc l1 l2 [a]).symm,
      List.getLast?_concat]

/-- C8 witness: the progress values of a concrete successful run are
non-decreasing. -/
theorem progress_monotone_on_success_witness :
    preT.contains_text = true ∧
    List.Chain' (· ≤ ·)
      ((run_trace (successEnv "42" preT frA [] true [("P", "p1")]
        (fun _ => Except.ok true)
        (fun _ => Except.ok "2025-01-01 10:00")) "hello").filterMap
        (fun c => c.effectiveProgress)) :=
  ⟨rfl, (progress_monotone_on_success "hello" "42" preT frA [] true
    [("P", "p1")] (fun _ => Except.ok true)
    (fun _ => Except.ok "2025-01-01 10:00") rfl
    (fun _ => ⟨"2025-01-01 10:00", rfl⟩) (Or.inl rfl)).1⟩

end HiBen
